import Mathlib

/-!
Shallow embedding of the OR-Tools schedule solver model builder
(file `app.py`, class `ScheduleSolver`).  Decision variables are indexed
by `(member, shift, day)` triples; a CP-SAT valuation is modelled as a
function `Nat × Nat × Nat → Bool`.  Each `_add_*` method of the Python
class becomes a function returning the list of linear constraints it
adds to the model, in the order the Python code adds them.
-/

/-- A team member, `{id, name}` in the request payload. -/
structure Member where
  id : String
  name : String
deriving DecidableEq, Repr, Inhabited

/-- A shift.  The Python code only ever reads `id` and `name`; the
optional start and end times (modelled as minutes from midnight) appear
in the data model of the request but are never read by `app.py`. -/
structure Shift where
  id : String
  name : String
  start_time : Option Nat := none
  end_time : Option Nat := none
deriving DecidableEq, Repr, Inhabited

/-- One availability record: `{user_id, shift_id, date, status}`. -/
structure AvailabilityEntry where
  user_id : String
  shift_id : String
  date : String
  status : String
deriving DecidableEq, Repr, Inhabited

/-- One output assignment: `{user_id, shift_id, date}`. -/
structure Assignment where
  user_id : String
  shift_id : String
  date : String
deriving DecidableEq, Repr, Inhabited

/-- Result record returned by `_extract_solution` and `_solve_with_fallback`. -/
structure ScheduleResult where
  assignments : List Assignment
  solver_status : String
  solve_time : Nat
deriving DecidableEq, Repr, Inhabited

/-- A linear constraint added to the CP model.  The three shapes cover
every `self.model.Add(...)` call in `app.py`: `x[m,s,d] == 0`,
`sum(vars) <= bound` and `sum(vars) == bound`. -/
inductive Constr where
  | eqZero (m s d : Nat)
  | sumLe (vars : List (Nat × Nat × Nat)) (bound : Nat)
  | sumEq (vars : List (Nat × Nat × Nat)) (bound : Nat)
deriving DecidableEq, Repr

/-- 0/1 value of one decision variable under a valuation. -/
def boolVal (sol : Nat × Nat × Nat → Bool) (v : Nat × Nat × Nat) : Nat :=
  if sol v then 1 else 0

/-- Value of a linear sum of decision variables under a valuation. -/
def sumVars (sol : Nat × Nat × Nat → Bool) (vars : List (Nat × Nat × Nat)) : Nat :=
  (vars.map (boolVal sol)).sum

/-- Satisfaction of one constraint by a valuation. -/
def satisfies (sol : Nat × Nat × Nat → Bool) : Constr → Prop
  | .eqZero m s d => sol (m, s, d) = false
  | .sumLe vars b => sumVars sol vars ≤ b
  | .sumEq vars b => sumVars sol vars = b

instance decSatisfies (sol : Nat × Nat × Nat → Bool) (c : Constr) :
    Decidable (satisfies sol c) :=
  match c with
  | .eqZero m s d => inferInstanceAs (Decidable (sol (m, s, d) = false))
  | .sumLe vars b => inferInstanceAs (Decidable (sumVars sol vars ≤ b))
  | .sumEq vars b => inferInstanceAs (Decidable (sumVars sol vars = b))

/-- A valuation satisfies a whole model when it satisfies every
constraint in it. -/
def satisfiesAll (sol : Nat × Nat × Nat → Bool) (cs : List Constr) : Prop :=
  ∀ c ∈ cs, satisfies sol c

instance decSatisfiesAll (sol : Nat × Nat × Nat → Bool) (cs : List Constr) :
    Decidable (satisfiesAll sol cs) :=
  inferInstanceAs (Decidable (∀ c ∈ cs, satisfies sol c))

/-- Zero-pad to two digits, as Python `f"{n:02d}"` does for naturals. -/
def pad2 (n : Nat) : String :=
  if n < 10 then "0" ++ toString n else toString n

/-- The date string `f"{year}-{month:02d}-{day:02d}"` built in `app.py`
(the code always passes `d+1` as the day). -/
def dateStr (year month day : Nat) : String :=
  toString year ++ "-" ++ pad2 month ++ "-" ++ pad2 day

/-- `next((a for a in availability if a matches), None)` from
`_add_availability_constraints` and `_is_priority_assignment`. -/
def findAvailability (availability : List AvailabilityEntry)
    (memberId shiftId date : String) : Option AvailabilityEntry :=
  availability.find? fun a =>
    a.user_id == memberId && a.shift_id == shiftId && a.date == date

/-- The synthetic worker appended by `solve_schedule`. -/
def dummyWorker : Member := ⟨"unassigned", "Unassigned"⟩

/-- `_add_availability_constraints`: for every real member, shift and
day, if the first matching availability entry has status `unavailable`,
add `x[m,s,d] == 0`; the dummy worker is skipped, every other status and
the absence of an entry add nothing. -/
def availLeaf (availability : List AvailabilityEntry) (month year : Nat)
    (mem : Member) (sh : Shift) (m s d : Nat) : List Constr :=
  if mem.id == "unassigned" then []
  else
    match findAvailability availability mem.id sh.id (dateStr year month (d + 1)) with
    | some e => if e.status == "unavailable" then [Constr.eqZero m s d] else []
    | none => []

def availabilityConstraints (members : List Member) (shifts : List Shift)
    (availability : List AvailabilityEntry) (days month year : Nat) : List Constr :=
  (List.range members.length).flatMap fun m =>
    (List.range shifts.length).flatMap fun s =>
      (List.range days).flatMap fun d =>
        availLeaf availability month year (members[m]!) (shifts[s]!) m s d

/-- Parameter payload of a custom constraint, restricted to the keys the
handlers in `app.py` actually read; the structure defaults are the
`dict.get` defaults of the corresponding reads. -/
structure ShiftIdentifiers where
  names : List String := []
  keywords : List String := []
deriving DecidableEq, Repr, Inhabited

/-- One forbidden transition record from `shift_transition_restriction`
parameters. -/
structure Transition where
  from_shift_id : String := ""
  to_shift_id : String := ""
  from_shift_name : String := ""
  to_shift_name : String := ""
deriving DecidableEq, Repr, Inhabited

/-- The `parameters` dict of a custom constraint.  `shift_type` and
`rest_period_hours` are read by `_add_ai_consecutive_shift_restriction`
but only logged; `shift_type` is kept because the spec-side target
resolution below consults it. -/
structure Params where
  shift_type : String := "night"
  max_consecutive : Nat := 0
  shift_identifiers : ShiftIdentifiers := {}
  applies_to_shifts : List String := []
  forbidden_transitions : List Transition := []
  workers_required : Nat := 1
  shift_names : List String := []
deriving DecidableEq, Repr, Inhabited

/-- The `ai_translation` sub-object of a custom constraint row. -/
structure AiTranslation where
  constraint_type : String := ""
  parameters : Params := {}
deriving DecidableEq, Repr, Inhabited

/-- One row of the `custom_constraints` table as `_process_custom_constraints`
reads it. -/
structure CustomConstraint where
  constraint_type : String := ""
  ai_translation : Option AiTranslation := none
  parameters : Params := {}
  status : String := ""
deriving DecidableEq, Repr, Inhabited

/-- `basic_constraints` with the defaults `solve_schedule` applies when a
key is missing (lines 29 to 31 of `app.py`). -/
structure BasicConstraints where
  max_consecutive_days : Nat := 30
  max_days_per_month : Nat := 20
  workers_per_shift : Nat := 2
deriving DecidableEq, Repr, Inhabited

/-- The request payload consumed by `solve_schedule` (the dummy worker is
appended by the solver itself, so `members` here holds only real members). -/
structure SolveInput where
  members : List Member
  shifts : List Shift
  availability : List AvailabilityEntry
  month : Nat
  year : Nat
  basic : BasicConstraints := {}
  custom_constraints : List CustomConstraint := []
deriving Repr, Inhabited

/-- Variables `x[m, s, d]` for all members `m`, at a fixed shift and day:
the sum constrained by the coverage rules. -/
def colVars (numMembers s d : Nat) : List (Nat × Nat × Nat) :=
  (List.range numMembers).map fun m => (m, s, d)

/-- All variables of member `m`: `for s in range(len(shifts)) for d in
range(days_in_month)` (line 232 of `app.py`). -/
def memberVars (numShifts days m : Nat) : List (Nat × Nat × Nat) :=
  (List.range numShifts).flatMap fun s =>
    (List.range days).map fun d => (m, s, d)

/-- Variables of member `m` in the sliding window of `K+1` days starting
at `d`, over all shifts: `for s in range(len(shifts)) for i in
range(max_consecutive + 1)` (line 248 of `app.py`). -/
def windowVars (numShifts m d maxConsecutive : Nat) : List (Nat × Nat × Nat) :=
  (List.range numShifts).flatMap fun s =>
    (List.range (maxConsecutive + 1)).map fun i => (m, s, d + i)

/-- Same window restricted to a target subset of shifts (line 480 of
`app.py`). -/
def targetWindowVars (targets : List Nat) (m d maxConsecutive : Nat) :
    List (Nat × Nat × Nat) :=
  targets.flatMap fun s =>
    (List.range (maxConsecutive + 1)).map fun i => (m, s, d + i)

/-- One parsed shift rule as `_add_workers_per_shift_constraint` would
read it from `parsed_custom_constraints`; `value` is an `Option` because
the code checks `'value' in rule`. -/
structure ShiftRuleP where
  type : String := ""
  value : Option Nat := none
deriving DecidableEq, Repr, Inhabited

/-- The `parsed_custom_constraints` object looked up (and never found,
because `solve_schedule` never puts that key into the merged constraints
dict) by `_add_workers_per_shift_constraint`. -/
structure ParsedCustom where
  shift_rules : List ShiftRuleP := []
deriving DecidableEq, Repr, Inhabited

/-- `_add_workers_per_shift_constraint`: looks for a custom
`workers_per_shift` override in `parsed_custom_constraints` (which
`solve_schedule` never populates, so the caller passes `none`), then adds
`sum(x[m,s,d] for m) <= workers_per_shift` for every shift and day. -/
def workersPerShiftConstraints (numMembers numShifts days : Nat)
    (parsedCustom : Option ParsedCustom) (workersPerShiftCfg : Nat) : List Constr :=
  let shiftRules := (parsedCustom.map (·.shift_rules)).getD []
  let customWorkers :=
    (shiftRules.find? fun r => r.type == "workers_per_shift" && r.value.isSome).bind
      (·.value)
  let workers := customWorkers.getD workersPerShiftCfg
  (List.range numShifts).flatMap fun s =>
    (List.range days).map fun d => Constr.sumLe (colVars numMembers s d) workers

/-- `_add_max_shifts_per_month_constraint`: for every member (the dummy
worker included), the total of all its variables is at most
`max_days_per_month`. -/
def maxShiftsPerMonthConstraints (numMembers numShifts days maxShifts : Nat) :
    List Constr :=
  (List.range numMembers).map fun m =>
    Constr.sumLe (memberVars numShifts days m) maxShifts

/-- `_add_max_consecutive_shifts_constraint`: for every member and every
window start `d in range(days_in_month - max_consecutive)`, the window
total is at most `max_consecutive`. -/
def maxConsecutiveConstraints (numMembers numShifts days maxConsecutive : Nat) :
    List Constr :=
  (List.range numMembers).flatMap fun m =>
    (List.range (days - maxConsecutive)).map fun d =>
      Constr.sumLe (windowVars numShifts m d maxConsecutive) maxConsecutive

/-- Index resolution loop of `_add_shift_transition_restriction`: scans
all shifts and keeps the last index whose id matches. -/
def lastIndexWithId (shifts : List Shift) (sid : String) : Option Nat :=
  (List.range shifts.length).foldl
    (fun acc i => if (shifts[i]!).id == sid then some i else acc) none

/-- Constraints contributed by one forbidden transition: nothing when an
id is unresolvable, otherwise `x[m,from,d] + x[m,to,d+1] <= 1` for every
member and every day `d in range(days_in_month - 1)`. -/
def transitionConstraints (numMembers : Nat) (shifts : List Shift) (days : Nat)
    (t : Transition) : List Constr :=
  match lastIndexWithId shifts t.from_shift_id,
      lastIndexWithId shifts t.to_shift_id with
  | some fi, some ti =>
      (List.range numMembers).flatMap fun m =>
        (List.range (days - 1)).map fun d =>
          Constr.sumLe [(m, fi, d), (m, ti, d + 1)] 1
  | _, _ => []

/-- `_add_shift_transition_restriction` over its `forbidden_transitions`
parameter. -/
def shiftTransitionRestriction (numMembers : Nat) (shifts : List Shift)
    (days : Nat) (ps : Params) : List Constr :=
  ps.forbidden_transitions.flatMap (transitionConstraints numMembers shifts days)

/-- `listStartsWith a b` holds when `a` is a leading segment of `b`. -/
def listStartsWith : List Char → List Char → Bool
  | [], _ => true
  | _ :: _, [] => false
  | a :: as, b :: bs => a == b && listStartsWith as bs

/-- Substring containment, the Python `needle in haystack` test on
strings (character lists). -/
def listContainsSub (needle : List Char) : List Char → Bool
  | [] => needle.isEmpty
  | c :: cs => listStartsWith needle (c :: cs) || listContainsSub needle cs

/-- Per-shift target test of `_add_ai_consecutive_shift_restriction`:
strategy 1 matches the id against `applies_to_shifts`, strategy 2 the
exact name against `shift_identifiers.names`, and the keyword fallback
runs only when both of those lists are empty. -/
def isTargetShift (ps : Params) (sh : Shift) : Bool :=
  if ps.applies_to_shifts.contains sh.id then true
  else if ps.shift_identifiers.names.contains sh.name then true
  else if ps.applies_to_shifts.isEmpty && ps.shift_identifiers.names.isEmpty then
    ps.shift_identifiers.keywords.any fun kw =>
      listContainsSub kw.toLower.data sh.name.toLower.data
  else false

/-- Target shift indices resolved by `_add_ai_consecutive_shift_restriction`. -/
def targetShiftIndices (shifts : List Shift) (ps : Params) : List Nat :=
  (List.range shifts.length).filter fun i => isTargetShift ps (shifts[i]!)

/-- `_add_ai_consecutive_shift_restriction`: sliding-window bound over the
resolved target shifts; a warned no-op when no shift matches. -/
def aiConsecutiveShiftRestriction (numMembers : Nat) (shifts : List Shift)
    (days : Nat) (ps : Params) : List Constr :=
  let targets := targetShiftIndices shifts ps
  if targets.isEmpty then []
  else
    (List.range numMembers).flatMap fun m =>
      (List.range (days - ps.max_consecutive)).map fun d =>
        Constr.sumLe (targetWindowVars targets m d ps.max_consecutive)
          ps.max_consecutive

/-- Target shifts of `_add_ai_workers_per_shift_constraint`, matched by
exact name against `shift_names`. -/
def aiWorkersTargetIndices (shifts : List Shift) (names : List String) : List Nat :=
  (List.range shifts.length).filter fun i => names.contains (shifts[i]!).name

/-- `_add_ai_workers_per_shift_constraint`: exact coverage equality
`sum(x[m,s,d] for m) == workers_required` on every named shift and day;
a warned no-op when no shift name matches. -/
def aiWorkersPerShiftConstraint (numMembers : Nat) (shifts : List Shift)
    (days : Nat) (ps : Params) : List Constr :=
  let targets := aiWorkersTargetIndices shifts ps.shift_names
  if targets.isEmpty then []
  else
    targets.flatMap fun s =>
      (List.range days).map fun d =>
        Constr.sumEq (colVars numMembers s d) ps.workers_required

/-- Type and parameter resolution of `_process_custom_constraints`:
the top-level `constraint_type` wins; when an `ai_translation` object is
present the parameters come from it, and it also supplies the type when
the top-level field is empty. -/
def effectiveTypeParams (c : CustomConstraint) : String × Params :=
  match c.ai_translation with
  | some ai =>
      (if c.constraint_type == "" then ai.constraint_type else c.constraint_type,
       ai.parameters)
  | none => (c.constraint_type, c.parameters)

/-- Dispatch of one custom constraint row: rows whose status is not
`translated` are skipped; `shift_preference`, `shift_rotation`,
`workload_distribution` and unknown types add no model constraints. -/
def dispatchCustomConstraint (numMembers : Nat) (shifts : List Shift)
    (days : Nat) (c : CustomConstraint) : List Constr :=
  if c.status == "translated" then
    let tp := effectiveTypeParams c
    if tp.1 == "consecutive_shift_restriction" then
      aiConsecutiveShiftRestriction numMembers shifts days tp.2
    else if tp.1 == "workers_per_shift" then
      aiWorkersPerShiftConstraint numMembers shifts days tp.2
    else if tp.1 == "shift_preference" then []
    else if tp.1 == "shift_rotation" then []
    else if tp.1 == "shift_transition_restriction" then
      shiftTransitionRestriction numMembers shifts days tp.2
    else []
  else []

/-- `_process_custom_constraints` over the whole `custom_constraints`
list. -/
def processCustomConstraints (numMembers : Nat) (shifts : List Shift)
    (days : Nat) (ccs : List CustomConstraint) : List Constr :=
  ccs.flatMap (dispatchCustomConstraint numMembers shifts days)

/-- The whole constraint model built by `solve_schedule` for a request:
the dummy worker is appended to the members, then the five builder phases
run in the order of lines 71 to 92 of `app.py`. -/
def buildModel (input : SolveInput) (days : Nat) : List Constr :=
  let members := input.members ++ [dummyWorker]
  availabilityConstraints members input.shifts input.availability days
      input.month input.year
  ++ workersPerShiftConstraints members.length input.shifts.length days none
      input.basic.workers_per_shift
  ++ maxShiftsPerMonthConstraints members.length input.shifts.length days
      input.basic.max_days_per_month
  ++ maxConsecutiveConstraints members.length input.shifts.length days
      input.basic.max_consecutive_days
  ++ processCustomConstraints members.length input.shifts days
      input.custom_constraints

/-- `_extract_solution`: one assignment per variable valued 1 whose
member is not the dummy worker; status is `OPTIMAL` exactly when the
solver status name is `OPTIMAL`, otherwise `FEASIBLE`. -/
def extractSolution (sol : Nat × Nat × Nat → Bool) (members : List Member)
    (shifts : List Shift) (days month year : Nat) (statusName : String)
    (wallTime : Nat) : ScheduleResult :=
  { assignments :=
      (List.range members.length).flatMap fun m =>
        (List.range shifts.length).flatMap fun s =>
          (List.range days).flatMap fun d =>
            if sol (m, s, d) && (members[m]!).id != "unassigned" then
              [⟨(members[m]!).id, (shifts[s]!).id, dateStr year month (d + 1)⟩]
            else []
    solver_status := if statusName == "OPTIMAL" then "OPTIMAL" else "FEASIBLE"
    solve_time := wallTime }

/-- Round-robin loop body of `_solve_with_fallback`: the accumulator is
the assignment list so far and the running `member_index`. -/
def fallbackStep (members : List Member) (shifts : List Shift) (month year : Nat)
    (acc : List Assignment × Nat) (p : Nat × Nat) : List Assignment × Nat :=
  if acc.2 < members.length - 1 then
    (acc.1 ++ [⟨(members[acc.2]!).id, (shifts[p.2]!).id, dateStr year month (p.1 + 1)⟩],
     (acc.2 + 1) % (members.length - 1))
  else acc

/-- Assignments produced by `_solve_with_fallback`: days
`range(min(7, days_in_month))` outer, shifts inner, cycling the member
index over the real members only (the dummy worker sits at the last
index and is excluded by the `< len(members) - 1` guard). -/
def fallbackAssignments (members : List Member) (shifts : List Shift)
    (days month year : Nat) : List Assignment :=
  (((List.range (min 7 days)).flatMap fun d =>
      (List.range shifts.length).map fun s => (d, s)).foldl
    (fallbackStep members shifts month year) ([], 0)).1

/-- `_solve_with_fallback`: fixed status `FALLBACK` and zero solve time. -/
def solveWithFallback (members : List Member) (shifts : List Shift)
    (days month year : Nat) : ScheduleResult :=
  { assignments := fallbackAssignments members shifts days month year
    solver_status := "FALLBACK"
    solve_time := 0 }

/-- Post-solve dispatch of `solve_schedule` (lines 120 to 134): on a
successful status extract the solution, replacing an empty extraction by
the fallback schedule; otherwise report the solver status as an error. -/
def solveDispatch (success : Bool) (statusName : String)
    (sol : Nat × Nat × Nat → Bool) (members : List Member) (shifts : List Shift)
    (days month year wallTime : Nat) : Except String ScheduleResult :=
  if success then
    let result := extractSolution sol members shifts days month year statusName wallTime
    if result.assignments.length == 0 then
      .ok (solveWithFallback members shifts days month year)
    else .ok result
  else .error ("No feasible solution found. Solver status: " ++ statusName)

/-- Gregorian leap-year rule, as `datetime` implements it. -/
def isLeapYear (y : Nat) : Bool :=
  (y % 4 == 0 && y % 100 != 0) || y % 400 == 0

/-- Number of days of month `m` of year `y` in the Gregorian calendar. -/
def monthLength (y m : Nat) : Nat :=
  if m = 2 then (if isLeapYear y then 29 else 28)
  else if m = 4 ∨ m = 6 ∨ m = 9 ∨ m = 11 then 30
  else 31

/-- Days in year `y` before the first day of month `m`. -/
def daysBeforeMonth (y m : Nat) : Nat :=
  ((List.range (m - 1)).map fun k => monthLength y (k + 1)).sum

/-- Proleptic Gregorian ordinal of a date, as `datetime.toordinal`
computes it (day 1 is January 1 of year 1). -/
def toOrdinal (y m d : Nat) : Nat :=
  365 * (y - 1) + (y - 1) / 4 - (y - 1) / 100 + (y - 1) / 400
    + daysBeforeMonth y m + d

/-- Validity check of the `datetime(year, month, day)` constructor:
out-of-range fields raise a `ValueError`. -/
def datetimeValid (y m d : Nat) : Prop :=
  1 ≤ y ∧ y ≤ 9999 ∧ 1 ≤ m ∧ m ≤ 12 ∧ 1 ≤ d ∧ d ≤ monthLength y m

instance decDatetimeValid (y m d : Nat) : Decidable (datetimeValid y m d) :=
  inferInstanceAs (Decidable (_ ∧ _))

/-- Line 37 of `app.py`:
`(datetime(year, month + 1, 1) - datetime(year, month, 1)).days`.
Python evaluates `datetime(year, month + 1, 1)` first, so for
`month = 12` the constructor raises before anything else happens. -/
def daysInMonthCalc (year month : Nat) : Except String Nat :=
  if ¬ datetimeValid year (month + 1) 1 then
    .error "ValueError: month must be in 1..12"
  else if ¬ datetimeValid year month 1 then
    .error "ValueError: month must be in 1..12"
  else
    .ok (toOrdinal year (month + 1) 1 - toOrdinal year month 1)

/-- Abstract outcome of one `solver.Solve(model)` call: `success` stands
for `status == OPTIMAL or status == FEASIBLE`, `sol` for the returned
valuation, `statusName` for `solver.StatusName()` and `wallTime` for
`solver.WallTime()`. -/
structure SolverRun where
  success : Bool
  statusName : String
  sol : Nat × Nat × Nat → Bool
  wallTime : Nat

/-- `solve_schedule` with the CP-SAT call abstracted as a function from
the built model to a `SolverRun`: the day count of line 37 is computed
inside the `try` block, so a raising `datetime` constructor turns into
the generic solver-error result of line 138. -/
def solveSchedule (solver : List Constr → SolverRun) (input : SolveInput) :
    Except String ScheduleResult :=
  match daysInMonthCalc input.year input.month with
  | .error e => .error ("Solver error: " ++ e)
  | .ok days =>
      let members := input.members ++ [dummyWorker]
      let run := solver (buildModel input days)
      solveDispatch run.success run.statusName run.sol members input.shifts days
        input.month input.year run.wallTime

/-- Total of the variables of member `m` (one `member_totals` entry of
`_calculate_workload_variance`, and the per-member total of line 694). -/
def memberTotalE (numShifts days m : Nat) (sol : Nat × Nat × Nat → Bool) : Nat :=
  sumVars sol (memberVars numShifts days m)

/-- `_calculate_workload_variance` of `app.py` (lines 685 to 723).  The
function never produces the documented pairwise penalty: with at most
one real member it returns 0 before the pair loop; with no shifts or no
days each `member_totals` entry is the plain integer 0 (Python `sum` of
an empty generator), so every pairwise difference is 0 and the loop
returns 0; otherwise each entry is a CP-SAT linear expression over
decision variables and the first `abs(diff)` call raises (a `TypeError`
on ortools versions whose `LinearExpr` lacks `__abs__`, caught by the
`except (IndexError, TypeError)` handler which returns 0; on versions
where `__abs__` raises `NotImplementedError` the exception escapes this
handler entirely).  The modelled value is therefore the constant 0. -/
def calculateWorkloadVariance (numMembers numShifts days : Nat) : Int :=
  if numMembers ≤ 1 then 0
  else if numMembers - 1 ≤ 1 then 0
  else if numShifts = 0 ∨ days = 0 then 0
  else 0

/-- `_is_priority_assignment`: the first matching availability entry has
status `priority`. -/
def isPriorityAssignment (availability : List AvailabilityEntry)
    (members : List Member) (shifts : List Shift) (m s d month year : Nat) : Bool :=
  match findAvailability availability (members[m]!).id (shifts[s]!).id
      (dateStr year month (d + 1)) with
  | some e => e.status == "priority"
  | none => false

/-- Priority bonus term of `_add_multi_objective`: sum of the variables
of real members whose triple has a `priority` availability entry. -/
def priorityBonusE (members : List Member) (shifts : List Shift)
    (days month year : Nat) (availability : List AvailabilityEntry)
    (sol : Nat × Nat × Nat → Bool) : Nat :=
  ((List.range (members.length - 1)).flatMap fun m =>
    (List.range shifts.length).flatMap fun s =>
      (List.range days).map fun d =>
        if isPriorityAssignment availability members shifts m s d month year then
          boolVal sol (m, s, d)
        else 0).sum

/-- Fill term of `_add_multi_objective`: sum of every variable, dummy
worker included. -/
def totalAssignmentsE (numMembers numShifts days : Nat)
    (sol : Nat × Nat × Nat → Bool) : Nat :=
  ((List.range numMembers).flatMap fun m =>
    (List.range numShifts).flatMap fun s =>
      (List.range days).map fun d => boolVal sol (m, s, d)).sum

/-- Unassigned penalty term: sum of the dummy-worker variables only. -/
def unassignedPenaltyE (dummyIndex numShifts days : Nat)
    (sol : Nat × Nat × Nat → Bool) : Nat :=
  ((List.range numShifts).flatMap fun s =>
    (List.range days).map fun d => boolVal sol (dummyIndex, s, d)).sum

/-- `_calculate_shift_type_variance`: the code buckets shifts by name
keywords and sums the totals of every bucket; since every shift lands in
exactly one bucket and all buckets are summed, the grand total equals
the sum of all real-member variables, which is what this definition
computes after the two guard branches of the source. -/
def calculateShiftTypeVariance (numMembers numShifts days : Nat)
    (sol : Nat × Nat × Nat → Bool) : Nat :=
  if numMembers ≤ 1 ∨ numShifts ≤ 1 then 0
  else
    ((List.range (numMembers - 1)).flatMap fun m =>
      (List.range numShifts).flatMap fun s =>
        (List.range days).map fun d => boolVal sol (m, s, d)).sum

/-- Value under a valuation of the objective built by
`_add_multi_objective` (lines 648 to 654 of `app.py`). -/
def objectiveE (input : SolveInput) (days : Nat)
    (sol : Nat × Nat × Nat → Bool) : Int :=
  let members := input.members ++ [dummyWorker]
  let dummyIndex := members.length - 1
  (totalAssignmentsE members.length input.shifts.length days sol : Int) * 1000
    + (priorityBonusE members input.shifts days input.month input.year
        input.availability sol : Int) * 100
    - (unassignedPenaltyE dummyIndex input.shifts.length days sol : Int) * 10
    - calculateWorkloadVariance members.length input.shifts.length days * 50
    - (calculateShiftTypeVariance members.length input.shifts.length days sol : Int) * 3

/-- Modelled from the spec (section 4.7, strategy 4): the spec describes
a time-range classification of a shift into the buckets
`{morning, afternoon, night, day, evening}` by fixed minute-of-day
boundaries, without giving the numeric boundaries; representative
boundaries are used here (a day shift is a morning start running past
the afternoon, a night bucket covers starts from 21:00 up to 05:00).
No such classification exists anywhere in `app.py`. -/
def specClassifyShift (sh : Shift) : Option String :=
  match sh.start_time, sh.end_time with
  | some start, some stop =>
      if 300 ≤ start ∧ start < 720 then
        (if 1020 ≤ stop then some "day" else some "morning")
      else if 720 ≤ start ∧ start < 1020 then some "afternoon"
      else if 1020 ≤ start ∧ start < 1260 then some "evening"
      else some "night"
  | _, _ => none

/-- Modelled from the spec (section 4.7): the prioritized target-shift
resolution as the spec words it, with strategies (1) explicit shift-id
list, (2) exact name match, (3) keyword substring match, and
(4) time-range classification matching the rule shift type, where
earlier strategies short-circuit later ones. -/
def specTargetShiftIndices (shifts : List Shift) (ps : Params) : List Nat :=
  (List.range shifts.length).filter fun i =>
    let sh := shifts[i]!
    if ps.applies_to_shifts.contains sh.id then true
    else if ps.shift_identifiers.names.contains sh.name then true
    else if ps.shift_identifiers.keywords.any
        (fun kw => listContainsSub kw.toLower.data sh.name.toLower.data) then true
    else specClassifyShift sh == some ps.shift_type

/-- One pairwise workload penalty as the spec states it:
`(|diff| - 1)^2 * 100` when `|diff| > 1`, else `|diff| * 2`. -/
def specPairPenalty (a b : Int) : Int :=
  let n := (a - b).natAbs
  if 1 < n then ((n - 1) * (n - 1) * 100 : Nat) else (n * 2 : Nat)

/-- Modelled from the spec (section 4.8, term 4): the workload-balance
penalty summed over every unordered pair of distinct real members,
evaluated on a valuation.  This is what `_calculate_workload_variance`
documents but never computes. -/
def specWorkloadPenalty (numMembers numShifts days : Nat)
    (sol : Nat × Nat × Nat → Bool) : Int :=
  let totals := (List.range (numMembers - 1)).map fun m =>
    (memberTotalE numShifts days m sol : Int)
  ((List.range totals.length).flatMap fun i =>
    (List.range totals.length).map fun j =>
      if i < j then specPairPenalty (totals[i]!) (totals[j]!) else 0).sum

/-- The objective as claim C6 states it: identical to `objectiveE` except
that the workload term is the pairwise penalty of the spec. -/
def specObjectiveE (input : SolveInput) (days : Nat)
    (sol : Nat × Nat × Nat → Bool) : Int :=
  let members := input.members ++ [dummyWorker]
  let dummyIndex := members.length - 1
  (totalAssignmentsE members.length input.shifts.length days sol : Int) * 1000
    + (priorityBonusE members input.shifts days input.month input.year
        input.availability sol : Int) * 100
    - (unassignedPenaltyE dummyIndex input.shifts.length days sol : Int) * 10
    - specWorkloadPenalty members.length input.shifts.length days sol * 50
    - (calculateShiftTypeVariance members.length input.shifts.length days sol : Int) * 3

/-- A constraint model no valuation satisfies: the solver must report it
infeasible. -/
def modelInfeasible (cs : List Constr) : Prop :=
  ∀ sol : Nat × Nat × Nat → Bool, ¬ satisfiesAll sol cs

/-- The all-zero valuation (no member assigned anywhere). -/
def allZeroSol : Nat × Nat × Nat → Bool := fun _ => false

/-- The key triple identifying an availability entry. -/
def availKey (a : AvailabilityEntry) : String × String × String :=
  (a.user_id, a.shift_id, a.date)

/-- A matching availability entry with status `unavailable` exists for a
member, shift and zero-based day of the request month. -/
def unavailableEntryFor (input : SolveInput) (mem : Member) (sh : Shift)
    (d : Nat) : Prop :=
  ∃ e ∈ input.availability, e.user_id = mem.id ∧ e.shift_id = sh.id ∧
    e.date = dateStr input.year input.month (d + 1) ∧ e.status = "unavailable"

instance decUnavailableEntryFor (input : SolveInput) (mem : Member) (sh : Shift)
    (d : Nat) : Decidable (unavailableEntryFor input mem sh d) :=
  inferInstanceAs (Decidable (∃ e ∈ input.availability, _ ∧ _ ∧ _ ∧ _))

/-! ### Helper lemmas -/

theorem sumVars_append (sol : Nat × Nat × Nat → Bool)
    (a b : List (Nat × Nat × Nat)) :
    sumVars sol (a ++ b) = sumVars sol a + sumVars sol b := by
  simp [sumVars]

theorem sumVars_flatMap {α : Type} (sol : Nat × Nat × Nat → Bool)
    (l : List α) (f : α → List (Nat × Nat × Nat)) :
    sumVars sol (l.flatMap f) = (l.map fun a => sumVars sol (f a)).sum := by
  induction l with
  | nil => simp [sumVars]
  | cons a t ih => simp [List.flatMap_cons, sumVars_append, ih]

theorem sum_map_range (f : Nat → Nat) (n : Nat) :
    ((List.range n).map f).sum = ∑ i in Finset.range n, f i := by
  induction n with
  | zero => simp
  | succ k ih => simp [List.range_succ, Finset.sum_range_succ, ih]

theorem sumVars_map_range (sol : Nat × Nat × Nat → Bool)
    (g : Nat → Nat × Nat × Nat) (n : Nat) :
    sumVars sol ((List.range n).map g) = ∑ i in Finset.range n, boolVal sol (g i) := by
  simp only [sumVars, List.map_map]
  exact sum_map_range _ n

theorem sumVars_allZero (vars : List (Nat × Nat × Nat)) :
    sumVars allZeroSol vars = 0 := by
  induction vars with
  | nil => rfl
  | cons v t ih => simp [sumVars, boolVal, allZeroSol] at *; exact ih

theorem sumVars_windowVars (sol : Nat × Nat × Nat → Bool)
    (numShifts m d K : Nat) :
    sumVars sol (windowVars numShifts m d K) =
      ∑ i in Finset.range (K + 1), ∑ s in Finset.range numShifts,
        boolVal sol (m, s, d + i) := by
  rw [windowVars, sumVars_flatMap]
  have h : ∀ s, sumVars sol ((List.range (K + 1)).map fun i => (m, s, d + i)) =
      ∑ i in Finset.range (K + 1), boolVal sol (m, s, d + i) := fun s =>
    sumVars_map_range sol _ _
  calc ((List.range numShifts).map fun s =>
          sumVars sol ((List.range (K + 1)).map fun i => (m, s, d + i))).sum
      = ∑ s in Finset.range numShifts, ∑ i in Finset.range (K + 1),
          boolVal sol (m, s, d + i) := by
        rw [← sum_map_range]
        congr 1
        exact List.map_congr_left fun s _ => h s
    _ = ∑ i in Finset.range (K + 1), ∑ s in Finset.range numShifts,
          boolVal sol (m, s, d + i) := Finset.sum_comm

theorem mem_availLeaf {availability : List AvailabilityEntry} {month year : Nat}
    {mem : Member} {sh : Shift} {m s d : Nat} {c : Constr} :
    c ∈ availLeaf availability month year mem sh m s d ↔
      mem.id ≠ "unassigned" ∧
      ∃ e, findAvailability availability mem.id sh.id (dateStr year month (d + 1)) =
          some e ∧ e.status = "unavailable" ∧ c = Constr.eqZero m s d := by
  unfold availLeaf
  by_cases hid : mem.id = "unassigned"
  · simp [hid]
  · rw [if_neg (by simpa using hid)]
    cases hfind : findAvailability availability mem.id sh.id
        (dateStr year month (d + 1)) with
    | none => simp [hid]
    | some e =>
        by_cases hst : e.status = "unavailable"
        · simp [hst, hid, eq_comm]
        · simp [hst, hid]

theorem mem_availabilityConstraints {members : List Member} {shifts : List Shift}
    {availability : List AvailabilityEntry} {days month year : Nat} {c : Constr} :
    c ∈ availabilityConstraints members shifts availability days month year ↔
      ∃ m s d, m < members.length ∧ s < shifts.length ∧ d < days ∧
        c ∈ availLeaf availability month year (members[m]!) (shifts[s]!) m s d := by
  simp only [availabilityConstraints, List.mem_flatMap, List.mem_range]
  constructor
  · rintro ⟨m, hm, s, hs, d, hd, hc⟩
    exact ⟨m, s, d, hm, hs, hd, hc⟩
  · rintro ⟨m, s, d, hm, hs, hd, hc⟩
    exact ⟨m, hm, s, hs, d, hd, hc⟩

theorem mem_workersPerShiftConstraints {numMembers numShifts days w : Nat}
    {c : Constr} :
    c ∈ workersPerShiftConstraints numMembers numShifts days none w ↔
      ∃ s d, s < numShifts ∧ d < days ∧
        c = Constr.sumLe (colVars numMembers s d) w := by
  simp only [workersPerShiftConstraints, Option.map_none', Option.getD_none,
    List.find?_nil, Option.bind, List.mem_flatMap, List.mem_map, List.mem_range]
  constructor
  · rintro ⟨s, hs, d, hd, hc⟩
    exact ⟨s, d, hs, hd, hc.symm⟩
  · rintro ⟨s, d, hs, hd, hc⟩
    exact ⟨s, hs, d, hd, hc.symm⟩

theorem mem_maxShiftsPerMonthConstraints {numMembers numShifts days maxS : Nat}
    {c : Constr} :
    c ∈ maxShiftsPerMonthConstraints numMembers numShifts days maxS ↔
      ∃ m, m < numMembers ∧ c = Constr.sumLe (memberVars numShifts days m) maxS := by
  simp only [maxShiftsPerMonthConstraints, List.mem_map, List.mem_range]
  constructor
  · rintro ⟨m, hm, hc⟩; exact ⟨m, hm, hc.symm⟩
  · rintro ⟨m, hm, hc⟩; exact ⟨m, hm, hc.symm⟩

theorem mem_maxConsecutiveConstraints {numMembers numShifts days K : Nat}
    {c : Constr} :
    c ∈ maxConsecutiveConstraints numMembers numShifts days K ↔
      ∃ m d, m < numMembers ∧ d < days - K ∧
        c = Constr.sumLe (windowVars numShifts m d K) K := by
  simp only [maxConsecutiveConstraints, List.mem_flatMap, List.mem_map,
    List.mem_range]
  constructor
  · rintro ⟨m, hm, d, hd, hc⟩; exact ⟨m, d, hm, hd, hc.symm⟩
  · rintro ⟨m, d, hm, hd, hc⟩; exact ⟨m, hm, d, hd, hc.symm⟩

theorem mem_processCustomConstraints {numMembers : Nat} {shifts : List Shift}
    {days : Nat} {ccs : List CustomConstraint} {c : Constr} :
    c ∈ processCustomConstraints numMembers shifts days ccs ↔
      ∃ cc ∈ ccs, c ∈ dispatchCustomConstraint numMembers shifts days cc := by
  simp [processCustomConstraints, List.mem_flatMap]

theorem mem_buildModel {input : SolveInput} {days : Nat} {c : Constr} :
    c ∈ buildModel input days ↔
      c ∈ availabilityConstraints (input.members ++ [dummyWorker]) input.shifts
          input.availability days input.month input.year ∨
      c ∈ workersPerShiftConstraints (input.members ++ [dummyWorker]).length
          input.shifts.length days none input.basic.workers_per_shift ∨
      c ∈ maxShiftsPerMonthConstraints (input.members ++ [dummyWorker]).length
          input.shifts.length days input.basic.max_days_per_month ∨
      c ∈ maxConsecutiveConstraints (input.members ++ [dummyWorker]).length
          input.shifts.length days input.basic.max_consecutive_days ∨
      c ∈ processCustomConstraints (input.members ++ [dummyWorker]).length
          input.shifts days input.custom_constraints := by
  simp [buildModel, List.mem_append, or_assoc]

theorem transitionConstraints_resolved {numMembers : Nat} {shifts : List Shift}
    {days : Nat} {t : Transition} {fi ti : Nat}
    (hf : lastIndexWithId shifts t.from_shift_id = some fi)
    (ht : lastIndexWithId shifts t.to_shift_id = some ti) :
    transitionConstraints numMembers shifts days t =
      (List.range numMembers).flatMap fun m =>
        (List.range (days - 1)).map fun d =>
          Constr.sumLe [(m, fi, d), (m, ti, d + 1)] 1 := by
  unfold transitionConstraints
  rw [hf, ht]

theorem transitionConstraints_unresolved {numMembers : Nat} {shifts : List Shift}
    {days : Nat} {t : Transition}
    (h : lastIndexWithId shifts t.from_shift_id = none ∨
         lastIndexWithId shifts t.to_shift_id = none) :
    transitionConstraints numMembers shifts days t = [] := by
  unfold transitionConstraints
  rcases h with h | h
  · rw [h]
  · rw [h]
    cases lastIndexWithId shifts t.from_shift_id <;> rfl

theorem mem_shiftTransitionRestriction {numMembers : Nat} {shifts : List Shift}
    {days : Nat} {ps : Params} {c : Constr} :
    c ∈ shiftTransitionRestriction numMembers shifts days ps ↔
      ∃ t ∈ ps.forbidden_transitions,
        c ∈ transitionConstraints numMembers shifts days t := by
  simp [shiftTransitionRestriction, List.mem_flatMap]

theorem mem_targetShiftIndices {shifts : List Shift} {ps : Params} {i : Nat} :
    i ∈ targetShiftIndices shifts ps ↔
      i < shifts.length ∧ isTargetShift ps (shifts[i]!) = true := by
  simp [targetShiftIndices, List.mem_filter, List.mem_range]

theorem aiConsecutive_of_no_target {numMembers : Nat} {shifts : List Shift}
    {days : Nat} {ps : Params}
    (h : targetShiftIndices shifts ps = []) :
    aiConsecutiveShiftRestriction numMembers shifts days ps = [] := by
  simp [aiConsecutiveShiftRestriction, h]

theorem aiConsecutive_shape {numMembers : Nat} {shifts : List Shift}
    {days : Nat} {ps : Params} {c : Constr}
    (h : c ∈ aiConsecutiveShiftRestriction numMembers shifts days ps) :
    ∃ vars b, c = Constr.sumLe vars b := by
  unfold aiConsecutiveShiftRestriction at h
  by_cases he : (targetShiftIndices shifts ps).isEmpty
  · simp [he] at h
  · simp only [he, Bool.false_eq_true, if_false, List.mem_flatMap, List.mem_map,
      List.mem_range] at h
    obtain ⟨m, -, d, -, hc⟩ := h
    exact ⟨_, _, hc.symm⟩

theorem mem_aiWorkersTargetIndices {shifts : List Shift} {names : List String}
    {s : Nat} :
    s ∈ aiWorkersTargetIndices shifts names ↔
      s < shifts.length ∧ names.contains (shifts[s]!).name = true := by
  simp [aiWorkersTargetIndices, List.mem_filter, List.mem_range]

theorem mem_aiWorkersPerShiftConstraint {numMembers : Nat} {shifts : List Shift}
    {days : Nat} {ps : Params} {c : Constr} :
    c ∈ aiWorkersPerShiftConstraint numMembers shifts days ps ↔
      ∃ s ∈ aiWorkersTargetIndices shifts ps.shift_names, ∃ d < days,
        c = Constr.sumEq (colVars numMembers s d) ps.workers_required := by
  unfold aiWorkersPerShiftConstraint
  by_cases he : (aiWorkersTargetIndices shifts ps.shift_names).isEmpty
  · rw [List.isEmpty_iff] at he
    simp [he]
  · simp only [he, Bool.false_eq_true, if_false, List.mem_flatMap, List.mem_map,
      List.mem_range]
    constructor
    · rintro ⟨s, hs, d, hd, hc⟩
      exact ⟨s, hs, d, hd, hc.symm⟩
    · rintro ⟨s, hs, d, hd, hc⟩
      exact ⟨s, hs, d, hd, hc.symm⟩

theorem find_of_mem_unique (avail : List AvailabilityEntry)
    (mid sid date : String)
    (huniq : avail.Pairwise (fun a b => availKey a ≠ availKey b))
    (e : AvailabilityEntry) (he : e ∈ avail)
    (hu : e.user_id = mid) (hs : e.shift_id = sid) (hd : e.date = date) :
    findAvailability avail mid sid date = some e := by
  induction avail with
  | nil => cases he
  | cons a t ih =>
      rw [List.pairwise_cons] at huniq
      rcases List.mem_cons.mp he with rfl | het
      · unfold findAvailability
        rw [List.find?_cons_of_pos _ (by simp [hu, hs, hd])]
      · have hne : availKey a ≠ availKey e := huniq.1 e het
        have hamatch : ¬ (a.user_id = mid ∧ a.shift_id = sid ∧ a.date = date) := by
          rintro ⟨h1, h2, h3⟩
          exact hne (by simp [availKey, h1, h2, h3, hu.symm, hs.symm, hd.symm])
        unfold findAvailability
        rw [List.find?_cons_of_neg _ (by
          simp only [Bool.and_eq_true, beq_iff_eq, Bool.not_eq_true]
          rintro ⟨⟨h1, h2⟩, h3⟩
          exact hamatch ⟨h1, h2, h3⟩)]
        exact ih huniq.2 het

theorem shiftTransition_shape {numMembers : Nat} {shifts : List Shift}
    {days : Nat} {ps : Params} {c : Constr}
    (h : c ∈ shiftTransitionRestriction numMembers shifts days ps) :
    ∃ vars b, c = Constr.sumLe vars b := by
  obtain ⟨t, -, hc⟩ := mem_shiftTransitionRestriction.mp h
  unfold transitionConstraints at hc
  cases hf : lastIndexWithId shifts t.from_shift_id with
  | none => rw [hf] at hc; cases hc
  | some fi =>
      cases ht : lastIndexWithId shifts t.to_shift_id with
      | none => rw [hf, ht] at hc; cases hc
      | some ti =>
          rw [hf, ht] at hc
          simp only [List.mem_flatMap, List.mem_map, List.mem_range] at hc
          obtain ⟨m, -, d, -, hc⟩ := hc
          exact ⟨_, _, hc.symm⟩

theorem aiWorkers_shape {numMembers : Nat} {shifts : List Shift} {days : Nat}
    {ps : Params} {c : Constr}
    (h : c ∈ aiWorkersPerShiftConstraint numMembers shifts days ps) :
    ∃ vars b, c = Constr.sumEq vars b := by
  obtain ⟨s, -, d, -, hc⟩ := mem_aiWorkersPerShiftConstraint.mp h
  exact ⟨_, _, hc⟩

theorem dispatch_shape {numMembers : Nat} {shifts : List Shift} {days : Nat}
    {cc : CustomConstraint} {c : Constr}
    (h : c ∈ dispatchCustomConstraint numMembers shifts days cc) :
    (∃ vars b, c = Constr.sumLe vars b) ∨ (∃ vars b, c = Constr.sumEq vars b) := by
  simp only [dispatchCustomConstraint] at h
  split at h
  · split at h
    · exact Or.inl (aiConsecutive_shape h)
    · split at h
      · exact Or.inr (aiWorkers_shape h)
      · split at h
        · cases h
        · split at h
          · cases h
          · split at h
            · exact Or.inl (shiftTransition_shape h)
            · cases h
  · cases h

theorem eqZero_mem_buildModel {input : SolveInput} {days m s d : Nat} :
    Constr.eqZero m s d ∈ buildModel input days ↔
      Constr.eqZero m s d ∈
        availabilityConstraints (input.members ++ [dummyWorker]) input.shifts
          input.availability days input.month input.year := by
  rw [mem_buildModel]
  constructor
  · rintro (h | h | h | h | h)
    · exact h
    · obtain ⟨s', d', -, -, hc⟩ := mem_workersPerShiftConstraints.mp h
      cases hc
    · obtain ⟨m', -, hc⟩ := mem_maxShiftsPerMonthConstraints.mp h
      cases hc
    · obtain ⟨m', d', -, -, hc⟩ := mem_maxConsecutiveConstraints.mp h
      cases hc
    · obtain ⟨cc, -, hc⟩ := mem_processCustomConstraints.mp h
      rcases dispatch_shape hc with ⟨vars, b, hc⟩ | ⟨vars, b, hc⟩ <;> cases hc
  · exact Or.inl

/-- C1: for every non-placeholder member `m`, shift `s` and day `d`, a
matching availability entry with status `unavailable` makes the builder
add the hard equality `x[m,s,d] == 0`, so the assignment is 0 in every
solution of the built model; these are the only hard equalities to zero:
every other status, the absence of a matching entry, and the placeholder
member contribute no availability constraint.  (Entries are assumed to
have pairwise distinct `(user_id, shift_id, date)` keys, as the data
model treats that triple as the lookup key.) -/
theorem c1_availability_unavailable_forces_zero (input : SolveInput) (days : Nat)
    (huniq : input.availability.Pairwise fun a b => availKey a ≠ availKey b) :
    (∀ m s d, Constr.eqZero m s d ∈ buildModel input days ↔
      (m < (input.members ++ [dummyWorker]).length ∧ s < input.shifts.length ∧
       d < days ∧ ((input.members ++ [dummyWorker])[m]!).id ≠ "unassigned" ∧
       unavailableEntryFor input ((input.members ++ [dummyWorker])[m]!)
         (input.shifts[s]!) d)) ∧
    (∀ sol, satisfiesAll sol (buildModel input days) →
      ∀ m s d, m < (input.members ++ [dummyWorker]).length →
        s < input.shifts.length → d < days →
        ((input.members ++ [dummyWorker])[m]!).id ≠ "unassigned" →
        unavailableEntryFor input ((input.members ++ [dummyWorker])[m]!)
          (input.shifts[s]!) d →
        sol (m, s, d) = false) := by
  have hiff : ∀ m s d, Constr.eqZero m s d ∈ buildModel input days ↔
      (m < (input.members ++ [dummyWorker]).length ∧ s < input.shifts.length ∧
       d < days ∧ ((input.members ++ [dummyWorker])[m]!).id ≠ "unassigned" ∧
       unavailableEntryFor input ((input.members ++ [dummyWorker])[m]!)
         (input.shifts[s]!) d) := by
    intro m s d
    rw [eqZero_mem_buildModel, mem_availabilityConstraints]
    constructor
    · rintro ⟨m', s', d', hm, hs, hd, hleaf⟩
      obtain ⟨hid, e, hfind, hst, heq⟩ := mem_availLeaf.mp hleaf
      obtain ⟨rfl, rfl, rfl⟩ : m = m' ∧ s = s' ∧ d = d' := by
        cases heq; exact ⟨rfl, rfl, rfl⟩
      refine ⟨hm, hs, hd, hid, e, List.mem_of_find?_eq_some hfind, ?_⟩
      have hp := List.find?_some hfind
      simp only [Bool.and_eq_true, beq_iff_eq] at hp
      exact ⟨hp.1.1, hp.1.2, hp.2, hst⟩
    · rintro ⟨hm, hs, hd, hid, e, he, h1, h2, h3, hst⟩
      refine ⟨m, s, d, hm, hs, hd, mem_availLeaf.mpr ⟨hid, e, ?_, hst, rfl⟩⟩
      exact find_of_mem_unique _ _ _ _ huniq e he h1 h2 h3
  refine ⟨hiff, fun sol hsat m s d h1 h2 h3 h4 h5 => ?_⟩
  exact hsat _ ((hiff m s d).mpr ⟨h1, h2, h3, h4, h5⟩)

/-- Witness for C1 at a concrete request: one member marked unavailable
for the only shift on the first day of a two-day horizon. -/
theorem c1_witness :
    Constr.eqZero 0 0 0 ∈
      buildModel ⟨[⟨"m1", "M1"⟩], [⟨"s1", "Day", none, none⟩],
        [⟨"m1", "s1", "2025-01-01", "unavailable"⟩], 1, 2025, {}, []⟩ 2 :=
  ((c1_availability_unavailable_forces_zero
      ⟨[⟨"m1", "M1"⟩], [⟨"s1", "Day", none, none⟩],
        [⟨"m1", "s1", "2025-01-01", "unavailable"⟩], 1, 2025, {}, []⟩ 2
      (by decide)).1 0 0 0).mpr (by decide)

/-- C4: for every member (in particular every non-placeholder member),
the model contains the bound `sum of all assignments of m <=
max_days_per_month` counted over shift-day pairs, so no solution of the
model gives a member more total assignments than `max_days_per_month`. -/
theorem c4_max_shifts_per_month (input : SolveInput) (days : Nat) :
    (∀ m, m < (input.members ++ [dummyWorker]).length →
      Constr.sumLe (memberVars input.shifts.length days m)
        input.basic.max_days_per_month ∈ buildModel input days) ∧
    (∀ sol, satisfiesAll sol (buildModel input days) →
      ∀ m, m < input.members.length →
        memberTotalE input.shifts.length days m sol ≤
          input.basic.max_days_per_month) := by
  have hmem : ∀ m, m < (input.members ++ [dummyWorker]).length →
      Constr.sumLe (memberVars input.shifts.length days m)
        input.basic.max_days_per_month ∈ buildModel input days := by
    intro m hm
    exact mem_buildModel.mpr (Or.inr (Or.inr (Or.inl
      (mem_maxShiftsPerMonthConstraints.mpr ⟨m, hm, rfl⟩))))
  refine ⟨hmem, fun sol hsat m hm => ?_⟩
  have hm2 : m < (input.members ++ [dummyWorker]).length := by
    simp only [List.length_append, List.length_cons, List.length_nil]
    omega
  exact hsat _ (hmem m hm2)

/-- Witness for C4 at a concrete request. -/
theorem c4_witness :
    Constr.sumLe (memberVars 1 3 0) 20 ∈
      buildModel ⟨[⟨"m1", "M1"⟩], [⟨"s1", "Day", none, none⟩], [], 1, 2025, {}, []⟩ 3 :=
  (c4_max_shifts_per_month
      ⟨[⟨"m1", "M1"⟩], [⟨"s1", "Day", none, none⟩], [], 1, 2025, {}, []⟩ 3).1 0
    (by decide)

/-- C3: for every member and every window start `d` with
`d + max_consecutive + 1 <= days` (the integer form of
`d + max_consecutive <= days - 1`), the model bounds the sum of that
member over all shifts across the `max_consecutive + 1` days starting at
`d` by `max_consecutive`; consequently no solution works a member on
`max_consecutive + 1` consecutive days, whatever shift is worked each
day. -/
theorem c3_max_consecutive_window (input : SolveInput) (days : Nat) :
    (∀ m d, m < (input.members ++ [dummyWorker]).length →
      d + input.basic.max_consecutive_days + 1 ≤ days →
      Constr.sumLe
        (windowVars input.shifts.length m d input.basic.max_consecutive_days)
        input.basic.max_consecutive_days ∈ buildModel input days) ∧
    (∀ sol, satisfiesAll sol (buildModel input days) →
      ∀ m d, m < (input.members ++ [dummyWorker]).length →
        d + input.basic.max_consecutive_days + 1 ≤ days →
        sumVars sol
            (windowVars input.shifts.length m d input.basic.max_consecutive_days)
          ≤ input.basic.max_consecutive_days ∧
        ¬ ∀ i ≤ input.basic.max_consecutive_days,
            ∃ s, s < input.shifts.length ∧ sol (m, s, d + i) = true) := by
  have hmem : ∀ m d, m < (input.members ++ [dummyWorker]).length →
      d + input.basic.max_consecutive_days + 1 ≤ days →
      Constr.sumLe
        (windowVars input.shifts.length m d input.basic.max_consecutive_days)
        input.basic.max_consecutive_days ∈ buildModel input days := by
    intro m d hm hd
    exact mem_buildModel.mpr (Or.inr (Or.inr (Or.inr (Or.inl
      (mem_maxConsecutiveConstraints.mpr ⟨m, d, hm, by omega, rfl⟩)))))
  refine ⟨hmem, fun sol hsat m d hm hd => ?_⟩
  have hle : sumVars sol
      (windowVars input.shifts.length m d input.basic.max_consecutive_days)
      ≤ input.basic.max_consecutive_days := hsat _ (hmem m d hm hd)
  refine ⟨hle, fun hall => ?_⟩
  have hK1 : input.basic.max_consecutive_days + 1 ≤ sumVars sol
      (windowVars input.shifts.length m d input.basic.max_consecutive_days) := by
    rw [sumVars_windowVars]
    have h1 : ∀ i ∈ Finset.range (input.basic.max_consecutive_days + 1),
        1 ≤ ∑ s in Finset.range input.shifts.length, boolVal sol (m, s, d + i) := by
      intro i hi
      obtain ⟨s, hsS, hstrue⟩ := hall i (by
        have := Finset.mem_range.mp hi
        omega)
      calc 1 = boolVal sol (m, s, d + i) := by simp [boolVal, hstrue]
        _ ≤ ∑ t in Finset.range input.shifts.length, boolVal sol (m, t, d + i) :=
          Finset.single_le_sum (f := fun t => boolVal sol (m, t, d + i))
            (fun j _ => Nat.zero_le _) (Finset.mem_range.mpr hsS)
    calc input.basic.max_consecutive_days + 1
        = ∑ _i in Finset.range (input.basic.max_consecutive_days + 1), 1 := by simp
      _ ≤ _ := Finset.sum_le_sum h1
  omega

/-- Witness for C3 at a concrete request with `max_consecutive_days = 2`
and a four-day horizon. -/
theorem c3_witness :
    Constr.sumLe (windowVars 1 0 0 2) 2 ∈
      buildModel ⟨[⟨"m1", "M1"⟩], [⟨"s1", "Day", none, none⟩], [], 1, 2025,
        ⟨2, 20, 2⟩, []⟩ 4 :=
  (c3_max_consecutive_window
      ⟨[⟨"m1", "M1"⟩], [⟨"s1", "Day", none, none⟩], [], 1, 2025, ⟨2, 20, 2⟩, []⟩
      4).1 0 0 (by decide) (by decide)

theorem dispatch_eq_workers {numMembers : Nat} {shifts : List Shift} {days : Nat}
    {cc : CustomConstraint} (hst : cc.status = "translated")
    (hty : (effectiveTypeParams cc).1 = "workers_per_shift") :
    dispatchCustomConstraint numMembers shifts days cc =
      aiWorkersPerShiftConstraint numMembers shifts days (effectiveTypeParams cc).2 := by
  simp [dispatchCustomConstraint, hst, hty]

theorem dispatch_eq_transition {numMembers : Nat} {shifts : List Shift} {days : Nat}
    {cc : CustomConstraint} (hst : cc.status = "translated")
    (hty : (effectiveTypeParams cc).1 = "shift_transition_restriction") :
    dispatchCustomConstraint numMembers shifts days cc =
      shiftTransitionRestriction numMembers shifts days (effectiveTypeParams cc).2 := by
  simp [dispatchCustomConstraint, hst, hty]

theorem dispatch_eq_consecutive {numMembers : Nat} {shifts : List Shift} {days : Nat}
    {cc : CustomConstraint} (hst : cc.status = "translated")
    (hty : (effectiveTypeParams cc).1 = "consecutive_shift_restriction") :
    dispatchCustomConstraint numMembers shifts days cc =
      aiConsecutiveShiftRestriction numMembers shifts days (effectiveTypeParams cc).2 := by
  simp [dispatchCustomConstraint, hst, hty]

/-- C2 counterexample: with three real members, one shift named `A`,
global `workers_per_shift = 1` and an active custom `workers_per_shift`
rule requiring exactly 3 workers on `A`, the built model still contains
the global upper bound `sum <= 1` for the overridden shift (first
conjunct), in addition to the custom equality `sum == 3` (second
conjunct), and the two together admit no valuation at all (third
conjunct), so the custom equality does not replace the global bound on
the shifts it names. -/
theorem c2_counterexample :
    Constr.sumLe [(0, 0, 0), (1, 0, 0), (2, 0, 0), (3, 0, 0)] 1 ∈
      buildModel ⟨[⟨"m1", "M1"⟩, ⟨"m2", "M2"⟩, ⟨"m3", "M3"⟩],
        [⟨"sA", "A", none, none⟩], [], 1, 2025, ⟨30, 20, 1⟩,
        [⟨"workers_per_shift", none, { workers_required := 3, shift_names := ["A"] },
          "translated"⟩]⟩ 1 ∧
    Constr.sumEq [(0, 0, 0), (1, 0, 0), (2, 0, 0), (3, 0, 0)] 3 ∈
      buildModel ⟨[⟨"m1", "M1"⟩, ⟨"m2", "M2"⟩, ⟨"m3", "M3"⟩],
        [⟨"sA", "A", none, none⟩], [], 1, 2025, ⟨30, 20, 1⟩,
        [⟨"workers_per_shift", none, { workers_required := 3, shift_names := ["A"] },
          "translated"⟩]⟩ 1 ∧
    modelInfeasible
      (buildModel ⟨[⟨"m1", "M1"⟩, ⟨"m2", "M2"⟩, ⟨"m3", "M3"⟩],
        [⟨"sA", "A", none, none⟩], [], 1, 2025, ⟨30, 20, 1⟩,
        [⟨"workers_per_shift", none, { workers_required := 3, shift_names := ["A"] },
          "translated"⟩]⟩ 1) := by
  refine ⟨by decide, by decide, fun sol hsat => ?_⟩
  have h1 : satisfies sol (Constr.sumLe [(0, 0, 0), (1, 0, 0), (2, 0, 0), (3, 0, 0)] 1) :=
    hsat _ (by decide)
  have h2 : satisfies sol (Constr.sumEq [(0, 0, 0), (1, 0, 0), (2, 0, 0), (3, 0, 0)] 3) :=
    hsat _ (by decide)
  simp only [satisfies, sumVars, List.map_cons, List.map_nil, List.sum_cons,
    List.sum_nil] at h1 h2
  omega

/-- C2 as amended: the global coverage bound
`sum over all members <= workers_per_shift` is added for every shift and
day, including shifts named by an active custom `workers_per_shift`
rule; such a rule additionally adds the exact equality
`sum == workers_required` for every named shift and day (it does not
replace the global bound, and it is added in the later custom phase),
and every solution of the model obeys both. -/
theorem c2_amended_coverage (input : SolveInput) (days : Nat) :
    (∀ s d, s < input.shifts.length → d < days →
      Constr.sumLe (colVars (input.members ++ [dummyWorker]).length s d)
        input.basic.workers_per_shift ∈ buildModel input days) ∧
    (∀ cc ∈ input.custom_constraints, cc.status = "translated" →
      (effectiveTypeParams cc).1 = "workers_per_shift" →
      ∀ s d, s < input.shifts.length → d < days →
        (effectiveTypeParams cc).2.shift_names.contains (input.shifts[s]!).name = true →
        Constr.sumEq (colVars (input.members ++ [dummyWorker]).length s d)
          (effectiveTypeParams cc).2.workers_required ∈ buildModel input days) ∧
    (∀ sol, satisfiesAll sol (buildModel input days) →
      ∀ s d, s < input.shifts.length → d < days →
        sumVars sol (colVars (input.members ++ [dummyWorker]).length s d)
          ≤ input.basic.workers_per_shift ∧
        ∀ cc ∈ input.custom_constraints, cc.status = "translated" →
          (effectiveTypeParams cc).1 = "workers_per_shift" →
          (effectiveTypeParams cc).2.shift_names.contains (input.shifts[s]!).name = true →
          sumVars sol (colVars (input.members ++ [dummyWorker]).length s d)
            = (effectiveTypeParams cc).2.workers_required) := by
  have hglobal : ∀ s d, s < input.shifts.length → d < days →
      Constr.sumLe (colVars (input.members ++ [dummyWorker]).length s d)
        input.basic.workers_per_shift ∈ buildModel input days := by
    intro s d hs hd
    exact mem_buildModel.mpr (Or.inr (Or.inl
      (mem_workersPerShiftConstraints.mpr ⟨s, d, hs, hd, rfl⟩)))
  have hcustom : ∀ cc ∈ input.custom_constraints, cc.status = "translated" →
      (effectiveTypeParams cc).1 = "workers_per_shift" →
      ∀ s d, s < input.shifts.length → d < days →
        (effectiveTypeParams cc).2.shift_names.contains (input.shifts[s]!).name = true →
        Constr.sumEq (colVars (input.members ++ [dummyWorker]).length s d)
          (effectiveTypeParams cc).2.workers_required ∈ buildModel input days := by
    intro cc hcc hst hty s d hs hd hname
    refine mem_buildModel.mpr (Or.inr (Or.inr (Or.inr (Or.inr
      (mem_processCustomConstraints.mpr ⟨cc, hcc, ?_⟩)))))
    rw [dispatch_eq_workers hst hty]
    exact mem_aiWorkersPerShiftConstraint.mpr
      ⟨s, mem_aiWorkersTargetIndices.mpr ⟨hs, hname⟩, d, hd, rfl⟩
  refine ⟨hglobal, hcustom, fun sol hsat s d hs hd => ?_⟩
  refine ⟨hsat _ (hglobal s d hs hd), fun cc hcc hst hty hname => ?_⟩
  exact hsat _ (hcustom cc hcc hst hty s d hs hd hname)

/-- Witness for the amended C2 at the concrete counterexample request:
the model contains both the global bound and the custom equality for the
named shift `A`. -/
theorem c2_amended_witness :
    Constr.sumLe [(0, 0, 0), (1, 0, 0), (2, 0, 0), (3, 0, 0)] 1 ∈
      buildModel ⟨[⟨"m1", "M1"⟩, ⟨"m2", "M2"⟩, ⟨"m3", "M3"⟩],
        [⟨"sA", "A", none, none⟩], [], 1, 2025, ⟨30, 20, 1⟩,
        [⟨"workers_per_shift", none, { workers_required := 3, shift_names := ["A"] },
          "translated"⟩]⟩ 1 ∧
    Constr.sumEq [(0, 0, 0), (1, 0, 0), (2, 0, 0), (3, 0, 0)] 3 ∈
      buildModel ⟨[⟨"m1", "M1"⟩, ⟨"m2", "M2"⟩, ⟨"m3", "M3"⟩],
        [⟨"sA", "A", none, none⟩], [], 1, 2025, ⟨30, 20, 1⟩,
        [⟨"workers_per_shift", none, { workers_required := 3, shift_names := ["A"] },
          "translated"⟩]⟩ 1 :=
  ⟨(c2_amended_coverage
      ⟨[⟨"m1", "M1"⟩, ⟨"m2", "M2"⟩, ⟨"m3", "M3"⟩], [⟨"sA", "A", none, none⟩], [],
        1, 2025, ⟨30, 20, 1⟩,
        [⟨"workers_per_shift", none, { workers_required := 3, shift_names := ["A"] },
          "translated"⟩]⟩ 1).1 0 0 (by decide) (by decide),
   (c2_amended_coverage
      ⟨[⟨"m1", "M1"⟩, ⟨"m2", "M2"⟩, ⟨"m3", "M3"⟩], [⟨"sA", "A", none, none⟩], [],
        1, 2025, ⟨30, 20, 1⟩,
        [⟨"workers_per_shift", none, { workers_required := 3, shift_names := ["A"] },
          "translated"⟩]⟩ 1).2.1
      ⟨"workers_per_shift", none, { workers_required := 3, shift_names := ["A"] },
        "translated"⟩ (by decide) (by decide) (by decide) 0 0 (by decide) (by decide)
      (by decide)⟩

/-- C5: for every active `shift_transition_restriction` rule and every
forbidden pair whose two shift ids resolve, the model contains
`x[m,from,d] + x[m,to,d+1] <= 1` for every member and every day `d` with
`d + 1 < days`, so no solution assigns the same member to the from-shift
on day `d` and the to-shift on day `d+1`; a pair with an unresolvable id
contributes zero constraints. -/
theorem c5_shift_transition_restriction (input : SolveInput) (days : Nat) :
    (∀ cc ∈ input.custom_constraints, cc.status = "translated" →
      (effectiveTypeParams cc).1 = "shift_transition_restriction" →
      ∀ t ∈ (effectiveTypeParams cc).2.forbidden_transitions,
        (∀ fi ti, lastIndexWithId input.shifts t.from_shift_id = some fi →
          lastIndexWithId input.shifts t.to_shift_id = some ti →
          ∀ m d, m < (input.members ++ [dummyWorker]).length → d + 1 < days →
            Constr.sumLe [(m, fi, d), (m, ti, d + 1)] 1 ∈ buildModel input days) ∧
        ((lastIndexWithId input.shifts t.from_shift_id = none ∨
          lastIndexWithId input.shifts t.to_shift_id = none) →
          transitionConstraints (input.members ++ [dummyWorker]).length
            input.shifts days t = [])) ∧
    (∀ sol, satisfiesAll sol (buildModel input days) →
      ∀ cc ∈ input.custom_constraints, cc.status = "translated" →
        (effectiveTypeParams cc).1 = "shift_transition_restriction" →
        ∀ t ∈ (effectiveTypeParams cc).2.forbidden_transitions,
        ∀ fi ti, lastIndexWithId input.shifts t.from_shift_id = some fi →
          lastIndexWithId input.shifts t.to_shift_id = some ti →
          ∀ m d, m < (input.members ++ [dummyWorker]).length → d + 1 < days →
            ¬ (sol (m, fi, d) = true ∧ sol (m, ti, d + 1) = true)) := by
  have hmem : ∀ cc ∈ input.custom_constraints, cc.status = "translated" →
      (effectiveTypeParams cc).1 = "shift_transition_restriction" →
      ∀ t ∈ (effectiveTypeParams cc).2.forbidden_transitions,
      ∀ fi ti, lastIndexWithId input.shifts t.from_shift_id = some fi →
        lastIndexWithId input.shifts t.to_shift_id = some ti →
        ∀ m d, m < (input.members ++ [dummyWorker]).length → d + 1 < days →
          Constr.sumLe [(m, fi, d), (m, ti, d + 1)] 1 ∈ buildModel input days := by
    intro cc hcc hst hty t ht fi ti hfi hti m d hm hd
    refine mem_buildModel.mpr (Or.inr (Or.inr (Or.inr (Or.inr
      (mem_processCustomConstraints.mpr ⟨cc, hcc, ?_⟩)))))
    rw [dispatch_eq_transition hst hty]
    refine mem_shiftTransitionRestriction.mpr ⟨t, ht, ?_⟩
    rw [transitionConstraints_resolved hfi hti]
    simp only [List.mem_flatMap, List.mem_map, List.mem_range]
    exact ⟨m, hm, d, by omega, rfl⟩
  refine ⟨?_, ?_⟩
  · intro cc hcc hst hty t ht
    exact ⟨fun fi ti hfi hti m d hm hd => hmem cc hcc hst hty t ht fi ti hfi hti m d hm hd,
      fun h => transitionConstraints_unresolved h⟩
  · intro sol hsat cc hcc hst hty t ht fi ti hfi hti m d hm hd hboth
    have hc := hsat _ (hmem cc hcc hst hty t ht fi ti hfi hti m d hm hd)
    simp only [satisfies, sumVars, List.map_cons, List.map_nil, List.sum_cons,
      List.sum_nil, boolVal, hboth.1, hboth.2, if_true] at hc
    omega

/-- Witness for C5: a request with one member, a night and a day shift,
and an active rule forbidding the night-to-day transition. -/
theorem c5_witness :
    Constr.sumLe [(0, 0, 0), (0, 1, 1)] 1 ∈
      buildModel ⟨[⟨"m1", "M1"⟩],
        [⟨"sN", "Night", none, none⟩, ⟨"sD", "Day", none, none⟩], [], 1, 2025, {},
        [⟨"shift_transition_restriction", none,
          { forbidden_transitions := [⟨"sN", "sD", "Night", "Day"⟩] },
          "translated"⟩]⟩ 2 :=
  ((c5_shift_transition_restriction
      ⟨[⟨"m1", "M1"⟩],
        [⟨"sN", "Night", none, none⟩, ⟨"sD", "Day", none, none⟩], [], 1, 2025, {},
        [⟨"shift_transition_restriction", none,
          { forbidden_transitions := [⟨"sN", "sD", "Night", "Day"⟩] },
          "translated"⟩]⟩ 2).1
    ⟨"shift_transition_restriction", none,
      { forbidden_transitions := [⟨"sN", "sD", "Night", "Day"⟩] }, "translated"⟩
    (by decide) (by decide) (by decide) ⟨"sN", "sD", "Night", "Day"⟩ (by decide)).1
    0 1 (by decide) (by decide) 0 0 (by decide) (by decide)

theorem isTargetShift_iff {ps : Params} {sh : Shift} :
    isTargetShift ps sh = true ↔
      (sh.id ∈ ps.applies_to_shifts ∨
       (sh.id ∉ ps.applies_to_shifts ∧ sh.name ∈ ps.shift_identifiers.names) ∨
       (ps.applies_to_shifts = [] ∧ ps.shift_identifiers.names = [] ∧
        ∃ kw ∈ ps.shift_identifiers.keywords,
          listContainsSub kw.toLower.data sh.name.toLower.data = true)) := by
  unfold isTargetShift
  by_cases h1 : sh.id ∈ ps.applies_to_shifts
  · rw [if_pos (List.elem_eq_true_of_mem h1)]
    simp [h1]
  · have hc1 : ps.applies_to_shifts.contains sh.id = false := by
      rw [Bool.eq_false_iff]
      intro hcontra
      exact h1 (List.mem_of_elem_eq_true hcontra)
    rw [if_neg (by rw [hc1]; exact Bool.false_ne_true)]
    by_cases h2 : sh.name ∈ ps.shift_identifiers.names
    · rw [if_pos (List.elem_eq_true_of_mem h2)]
      simp [h1, h2]
    · have hc2 : ps.shift_identifiers.names.contains sh.name = false := by
        rw [Bool.eq_false_iff]
        intro hcontra
        exact h2 (List.mem_of_elem_eq_true hcontra)
      rw [if_neg (by rw [hc2]; exact Bool.false_ne_true)]
      by_cases h3 : ps.applies_to_shifts = [] ∧ ps.shift_identifiers.names = []
      · rw [if_pos (by
          rw [Bool.and_eq_true, List.isEmpty_iff, List.isEmpty_iff]; exact h3)]
        simp [h1, h2, h3.1, h3.2, List.any_eq_true]
      · rw [if_neg (by
          rw [Bool.and_eq_true, List.isEmpty_iff, List.isEmpty_iff]; exact h3)]
        simp only [Bool.false_eq_true, false_iff]
        rintro (h | ⟨-, h⟩ | ⟨ha, hn, -⟩)
        · exact h1 h
        · exact h2 h
        · exact h3 ⟨ha, hn⟩

/-- C7 counterexample: an active `consecutive_shift_restriction` rule of
shift type `night` with no id list, no name list and no keywords, over a
single shift named `Team Alpha` running 23:00 to 07:00.  The claimed
strategy (4) classifies this shift into the night bucket by its times
(second conjunct, using the spec-modelled resolution), but the code
resolves no target shift (first conjunct) and therefore adds zero
constraints (third conjunct): no time-range classification exists in the
code. -/
theorem c7_counterexample :
    targetShiftIndices [⟨"s1", "Team Alpha", some 1380, some 420⟩]
        { shift_type := "night", max_consecutive := 1 } = [] ∧
    specTargetShiftIndices [⟨"s1", "Team Alpha", some 1380, some 420⟩]
        { shift_type := "night", max_consecutive := 1 } = [0] ∧
    aiConsecutiveShiftRestriction 2 [⟨"s1", "Team Alpha", some 1380, some 420⟩] 5
        { shift_type := "night", max_consecutive := 1 } = [] := by
  decide

/-- C7 as amended: target-shift resolution of
`consecutive_shift_restriction` uses only three prioritized strategies,
per shift: (1) id in the explicit list, else (2) exact name match, else
(3) keyword substring match, the latter attempted only when both the id
list and the name list are empty; no time-range strategy exists.  When
no shift matches, the handler adds zero constraints. -/
theorem c7_amended_target_resolution (shifts : List Shift) (ps : Params) :
    (∀ i, i ∈ targetShiftIndices shifts ps ↔
      (i < shifts.length ∧
        ((shifts[i]!).id ∈ ps.applies_to_shifts ∨
         ((shifts[i]!).id ∉ ps.applies_to_shifts ∧
          (shifts[i]!).name ∈ ps.shift_identifiers.names) ∨
         (ps.applies_to_shifts = [] ∧ ps.shift_identifiers.names = [] ∧
          ∃ kw ∈ ps.shift_identifiers.keywords,
            listContainsSub kw.toLower.data (shifts[i]!).name.toLower.data = true)))) ∧
    (targetShiftIndices shifts ps = [] →
      ∀ numMembers days, aiConsecutiveShiftRestriction numMembers shifts days ps = []) := by
  constructor
  · intro i
    rw [mem_targetShiftIndices, isTargetShift_iff]
  · intro h numMembers days
    exact aiConsecutive_of_no_target h

/-- Witness for the amended C7: the counterexample rule resolves no
target, so the handler is a no-op on the concrete request. -/
theorem c7_amended_witness :
    aiConsecutiveShiftRestriction 2 [⟨"s1", "Team Alpha", some 1380, some 420⟩] 5
      { shift_type := "night", max_consecutive := 1 } = [] :=
  (c7_amended_target_resolution [⟨"s1", "Team Alpha", some 1380, some 420⟩]
    { shift_type := "night", max_consecutive := 1 }).2 (by decide) 2 5

theorem dispatch_sumLe_of_not_workers {numMembers : Nat} {shifts : List Shift}
    {days : Nat} {cc : CustomConstraint} {c : Constr}
    (hw : ¬ (cc.status = "translated" ∧
      (effectiveTypeParams cc).1 = "workers_per_shift"))
    (hc : c ∈ dispatchCustomConstraint numMembers shifts days cc) :
    ∃ vars b, c = Constr.sumLe vars b := by
  simp only [dispatchCustomConstraint] at hc
  split at hc
  · rename_i hst
    split at hc
    · exact aiConsecutive_shape hc
    · split at hc
      · rename_i hty
        exact absurd ⟨by simpa using hst, by simpa using hty⟩ hw
      · split at hc
        · cases hc
        · split at hc
          · cases hc
          · split at hc
            · exact shiftTransition_shape hc
            · cases hc
  · cases hc

/-- C9 counterexample: one real member marked unavailable on both days of
a two-day horizon, with an active custom `workers_per_shift` rule
requiring exactly 2 workers on the only shift.  The model forces the
member to 0 (first conjunct), requires the column sum to equal 2 (second
conjunct), constrains the placeholder by the monthly bound like anyone
else (third conjunct, `memberVars 1 2 1` being the variables of the
dummy worker at index 1), and admits no valuation at all (fourth
conjunct): the placeholder is not exempt from every hard constraint and
the model does become infeasible when the real members are all blocked. -/
theorem c9_counterexample :
    Constr.eqZero 0 0 0 ∈
      buildModel ⟨[⟨"m1", "M1"⟩], [⟨"sA", "A", none, none⟩],
        [⟨"m1", "sA", "2025-01-01", "unavailable"⟩,
         ⟨"m1", "sA", "2025-01-02", "unavailable"⟩], 1, 2025, {},
        [⟨"workers_per_shift", none, { workers_required := 2, shift_names := ["A"] },
          "translated"⟩]⟩ 2 ∧
    Constr.sumEq [(0, 0, 0), (1, 0, 0)] 2 ∈
      buildModel ⟨[⟨"m1", "M1"⟩], [⟨"sA", "A", none, none⟩],
        [⟨"m1", "sA", "2025-01-01", "unavailable"⟩,
         ⟨"m1", "sA", "2025-01-02", "unavailable"⟩], 1, 2025, {},
        [⟨"workers_per_shift", none, { workers_required := 2, shift_names := ["A"] },
          "translated"⟩]⟩ 2 ∧
    Constr.sumLe (memberVars 1 2 1) 20 ∈
      buildModel ⟨[⟨"m1", "M1"⟩], [⟨"sA", "A", none, none⟩],
        [⟨"m1", "sA", "2025-01-01", "unavailable"⟩,
         ⟨"m1", "sA", "2025-01-02", "unavailable"⟩], 1, 2025, {},
        [⟨"workers_per_shift", none, { workers_required := 2, shift_names := ["A"] },
          "translated"⟩]⟩ 2 ∧
    modelInfeasible
      (buildModel ⟨[⟨"m1", "M1"⟩], [⟨"sA", "A", none, none⟩],
        [⟨"m1", "sA", "2025-01-01", "unavailable"⟩,
         ⟨"m1", "sA", "2025-01-02", "unavailable"⟩], 1, 2025, {},
        [⟨"workers_per_shift", none, { workers_required := 2, shift_names := ["A"] },
          "translated"⟩]⟩ 2) := by
  refine ⟨by decide, by decide, by decide, fun sol hsat => ?_⟩
  have h1 : sol (0, 0, 0) = false := hsat (Constr.eqZero 0 0 0) (by decide)
  have h2 : boolVal sol (0, 0, 0) + (boolVal sol (1, 0, 0) + 0) = 2 :=
    hsat (Constr.sumEq [(0, 0, 0), (1, 0, 0)] 2) (by decide)
  have hb0 : boolVal sol (0, 0, 0) = 0 := by
    unfold boolVal
    rw [if_neg (by rw [h1]; exact Bool.false_ne_true)]
  have hb1 : boolVal sol (1, 0, 0) ≤ 1 := by
    unfold boolVal
    split <;> omega
  omega

/-- C9 as amended: the placeholder is exempt only from the availability
constraints; it is subject to the coverage, monthly-total and
consecutive-run bounds.  Whenever no active custom `workers_per_shift`
rule is present (the only source of equality constraints), the all-zero
valuation satisfies the whole model, so the model stays feasible no
matter how availability blocks the real members; with such a rule the
model can become infeasible, as the counterexample shows. -/
theorem c9_amended_feasibility (input : SolveInput) (days : Nat)
    (h : ∀ cc ∈ input.custom_constraints,
      ¬ (cc.status = "translated" ∧
        (effectiveTypeParams cc).1 = "workers_per_shift")) :
    satisfiesAll allZeroSol (buildModel input days) := by
  intro c hc
  rcases mem_buildModel.mp hc with h1 | h1 | h1 | h1 | h1
  · obtain ⟨m, s, d, -, -, -, hleaf⟩ := mem_availabilityConstraints.mp h1
    obtain ⟨-, e, -, -, rfl⟩ := mem_availLeaf.mp hleaf
    rfl
  · obtain ⟨s, d, -, -, rfl⟩ := mem_workersPerShiftConstraints.mp h1
    simp [satisfies, sumVars_allZero]
  · obtain ⟨m, -, rfl⟩ := mem_maxShiftsPerMonthConstraints.mp h1
    simp [satisfies, sumVars_allZero]
  · obtain ⟨m, d, -, -, rfl⟩ := mem_maxConsecutiveConstraints.mp h1
    simp [satisfies, sumVars_allZero]
  · obtain ⟨cc, hcc, hdisp⟩ := mem_processCustomConstraints.mp h1
    obtain ⟨vars, b, rfl⟩ := dispatch_sumLe_of_not_workers (h cc hcc) hdisp
    simp [satisfies, sumVars_allZero]

/-- Witness for the amended C9: the counterexample request stripped of
its custom rule stays feasible even though the only real member is
blocked everywhere. -/
theorem c9_amended_witness :
    satisfiesAll allZeroSol
      (buildModel ⟨[⟨"m1", "M1"⟩], [⟨"sA", "A", none, none⟩],
        [⟨"m1", "sA", "2025-01-01", "unavailable"⟩,
         ⟨"m1", "sA", "2025-01-02", "unavailable"⟩], 1, 2025, {}, []⟩ 2) :=
  c9_amended_feasibility
    ⟨[⟨"m1", "M1"⟩], [⟨"sA", "A", none, none⟩],
      [⟨"m1", "sA", "2025-01-01", "unavailable"⟩,
       ⟨"m1", "sA", "2025-01-02", "unavailable"⟩], 1, 2025, {}, []⟩ 2
    (by decide)

theorem fallbackFold_length_mono (members : List Member) (shifts : List Shift)
    (month year : Nat) (ps : List (Nat × Nat)) (acc : List Assignment × Nat) :
    acc.1.length ≤ ((ps.foldl (fallbackStep members shifts month year) acc)).1.length := by
  induction ps generalizing acc with
  | nil => simp
  | cons p t ih =>
      rw [List.foldl_cons]
      refine le_trans ?_ (ih _)
      unfold fallbackStep
      split
      · simp
      · exact le_refl _

theorem fallbackAssignments_ne_nil (members : List Member) (shifts : List Shift)
    (days month year : Nat) (hm : 2 ≤ members.length) (hs : shifts ≠ [])
    (hd : 1 ≤ days) :
    fallbackAssignments members shifts days month year ≠ [] := by
  obtain ⟨rest, hrest⟩ : ∃ rest, ((List.range (min 7 days)).flatMap fun d =>
      (List.range shifts.length).map fun s => (d, s)) = (0, 0) :: rest := by
    obtain ⟨k, hk⟩ : ∃ k, min 7 days = k + 1 := ⟨min 7 days - 1, by omega⟩
    obtain ⟨j, hj⟩ : ∃ j, shifts.length = j + 1 := by
      have := List.length_pos.mpr hs
      exact ⟨shifts.length - 1, by omega⟩
    rw [hk, List.range_succ_eq_map, List.flatMap_cons, hj, List.range_succ_eq_map,
      List.map_cons, List.cons_append]
    exact ⟨_, rfl⟩
  unfold fallbackAssignments
  rw [hrest, List.foldl_cons]
  have hstep : (fallbackStep members shifts month year ([], 0) (0, 0)).1.length = 1 := by
    unfold fallbackStep
    rw [if_pos (by omega)]
    simp
  have hmono := fallbackFold_length_mono members shifts month year rest
    (fallbackStep members shifts month year ([], 0) (0, 0))
  intro hcontra
  rw [hcontra] at hmono
  simp only [List.length_nil, Nat.le_zero, hstep] at hmono
  omega

/-- C8: whenever the solver reports a successful status but the
extraction yields zero assignments, the returned result is the fallback
roster with status `FALLBACK` and `solve_time = 0`, the assignments
being the round-robin schedule over the first `min(7, days)` days; that
roster is non-empty whenever at least one real member, one shift and one
day exist. -/
theorem c8_fallback_on_empty_extraction (statusName : String)
    (sol : Nat × Nat × Nat → Bool) (members : List Member) (shifts : List Shift)
    (days month year wallTime : Nat)
    (hempty : (extractSolution sol members shifts days month year statusName
      wallTime).assignments = []) :
    solveDispatch true statusName sol members shifts days month year wallTime =
      .ok { assignments := fallbackAssignments members shifts days month year,
            solver_status := "FALLBACK", solve_time := 0 } ∧
    (∀ ms : List Member, members = ms ++ [dummyWorker] → ms ≠ [] → shifts ≠ [] →
      1 ≤ days → fallbackAssignments members shifts days month year ≠ []) := by
  constructor
  · simp [solveDispatch, solveWithFallback, hempty]
  · intro ms hms hne hs hd
    refine fallbackAssignments_ne_nil members shifts days month year ?_ hs hd
    have := List.length_pos.mpr hne
    simp only [hms, List.length_append, List.length_cons, List.length_nil]
    omega

/-- Witness for C8: an all-zero valuation over one real member, the
dummy worker and one shift extracts to zero assignments, the dispatch
returns the fallback result with status `FALLBACK` and zero solve time,
and that fallback roster is non-empty. -/
theorem c8_witness :
    (solveDispatch true "OPTIMAL" (fun _ => false)
        [⟨"m1", "M1"⟩, dummyWorker] [⟨"s1", "Day", none, none⟩] 3 1 2025 7 =
      .ok { assignments := fallbackAssignments [⟨"m1", "M1"⟩, dummyWorker]
              [⟨"s1", "Day", none, none⟩] 3 1 2025,
            solver_status := "FALLBACK", solve_time := 0 }) ∧
    fallbackAssignments [⟨"m1", "M1"⟩, dummyWorker]
      [⟨"s1", "Day", none, none⟩] 3 1 2025 ≠ [] :=
  ⟨(c8_fallback_on_empty_extraction "OPTIMAL" (fun _ => false)
      [⟨"m1", "M1"⟩, dummyWorker] [⟨"s1", "Day", none, none⟩] 3 1 2025 7
      (by decide)).1,
   (c8_fallback_on_empty_extraction "OPTIMAL" (fun _ => false)
      [⟨"m1", "M1"⟩, dummyWorker] [⟨"s1", "Day", none, none⟩] 3 1 2025 7
      (by decide)).2 [⟨"m1", "M1"⟩] rfl (by decide) (by decide) (by decide)⟩

theorem monthLength_pos (y m : Nat) : 1 ≤ monthLength y m := by
  unfold monthLength
  split
  · split <;> omega
  · split <;> omega

theorem daysBeforeMonth_succ (y m : Nat) (hm : 1 ≤ m) :
    daysBeforeMonth y (m + 1) = daysBeforeMonth y m + monthLength y m := by
  unfold daysBeforeMonth
  have hsub : m + 1 - 1 = (m - 1) + 1 := by omega
  rw [hsub, List.range_succ, List.map_append, List.sum_append]
  congr 1
  · simp
    congr 1
    omega

/-- C10: a request with `month = 12` makes line 37 of `app.py` construct
`datetime(year, 13, 1)`, which raises, and the top-level handler turns
that into the generic solver error, whatever the members, shifts,
availability or constraints are; for months 1 through 11 the computation
returns the correct Gregorian day count of the month. -/
theorem c10_month_twelve_errors (solver : List Constr → SolverRun)
    (input : SolveInput) :
    (input.month = 12 →
      solveSchedule solver input =
        .error ("Solver error: " ++ "ValueError: month must be in 1..12")) ∧
    (1 ≤ input.month → input.month ≤ 11 → 1 ≤ input.year → input.year ≤ 9999 →
      daysInMonthCalc input.year input.month =
        .ok (monthLength input.year input.month)) := by
  constructor
  · intro h12
    have hbad : ¬ datetimeValid input.year (input.month + 1) 1 := by
      rw [h12]
      rintro ⟨-, -, -, hle, -⟩
      omega
    unfold solveSchedule daysInMonthCalc
    rw [if_pos hbad]
  · intro hm1 hm11 hy1 hy2
    have hv1 : datetimeValid input.year (input.month + 1) 1 :=
      ⟨hy1, hy2, by omega, by omega, le_refl 1, monthLength_pos _ _⟩
    have hv2 : datetimeValid input.year input.month 1 :=
      ⟨hy1, hy2, by omega, by omega, le_refl 1, monthLength_pos _ _⟩
    unfold daysInMonthCalc
    rw [if_neg (by simpa using hv1), if_neg (by simpa using hv2)]
    congr 1
    unfold toOrdinal
    rw [daysBeforeMonth_succ input.year input.month hm1]
    generalize (365 * (input.year - 1) + (input.year - 1) / 4 -
      (input.year - 1) / 100 + (input.year - 1) / 400) = A
    omega

/-- Witness for C10: month 12 errors out regardless of the solver, and
November 2025 has 30 days. -/
theorem c10_witness :
    solveSchedule (fun _ => ⟨false, "INFEASIBLE", fun _ => false, 0⟩)
        ⟨[], [], [], 12, 2025, {}, []⟩ =
      .error ("Solver error: " ++ "ValueError: month must be in 1..12") ∧
    daysInMonthCalc 2025 11 = .ok 30 :=
  ⟨(c10_month_twelve_errors (fun _ => ⟨false, "INFEASIBLE", fun _ => false, 0⟩)
      ⟨[], [], [], 12, 2025, {}, []⟩).1 rfl,
   (c10_month_twelve_errors (fun _ => ⟨false, "INFEASIBLE", fun _ => false, 0⟩)
      ⟨[], [], [], 11, 2025, {}, []⟩).2 (by decide) (by decide) (by decide)
     (by decide)⟩

/-- C6 evidence: with two real members (`Alice` working all three days of
a one-shift three-day horizon, `Bob` idle), the pairwise workload
penalty the spec (and the comments of `_calculate_workload_variance`)
prescribe is `(|3-0|-1)^2 * 100 = 400` (second conjunct), but the term
the code contributes is the constant 0 (first conjunct): `abs()` of a
CP-SAT linear expression raises before any pair is scored, and the
`except (IndexError, TypeError)` handler returns 0.  Consequently the
code objective evaluates to `3000` where the objective claimed by the
spec evaluates to `3000 - 50 * 400 = -17000` (third and fourth
conjuncts). -/
theorem c6_workload_term_bug :
    calculateWorkloadVariance 3 1 3 = 0 ∧
    specWorkloadPenalty 3 1 3
      (fun v => v == (0, 0, 0) || v == (0, 0, 1) || v == (0, 0, 2)) = 400 ∧
    objectiveE ⟨[⟨"m1", "Alice"⟩, ⟨"m2", "Bob"⟩], [⟨"s1", "Shift A", none, none⟩],
        [], 1, 2025, {}, []⟩ 3
      (fun v => v == (0, 0, 0) || v == (0, 0, 1) || v == (0, 0, 2)) = 3000 ∧
    specObjectiveE ⟨[⟨"m1", "Alice"⟩, ⟨"m2", "Bob"⟩], [⟨"s1", "Shift A", none, none⟩],
        [], 1, 2025, {}, []⟩ 3
      (fun v => v == (0, 0, 0) || v == (0, 0, 1) || v == (0, 0, 2)) = -17000 := by
  decide
